import Mathlib

/-!
Verification development for the `pkatz` interactive viewer
(`src/ftr/pkatz.c`): a shallow embedding of its geometry kernel
(Katz flip inversion, lexicographic sort, Andrew monotone-chain convex
hull), its coordinate transforms, its event-handling state machine, and
its segment rasterizer, together with theorems settling the specified
properties.

Modelling conventions:
* C `float` arithmetic is idealised as exact arithmetic: `ℚ` where the
  code is purely rational (so every definition stays computable and
  concrete states can be evaluated by `decide`), `ℝ` where the code calls
  `hypot`/`sqrt`.  Numeric literals such as `7.3` are read as the exact
  rationals they denote.
* `lrint` (round to nearest) is modelled by `round` on `ℚ`; the
  properties proved below never depend on the tie-breaking direction.
* Arrays of interleaved coordinates (`float *x` with `x[2*i]`,
  `x[2*i+1]`) are modelled as `List (ℚ × ℚ)`.
-/

/-- A planar point, two coordinates (`x[2*i+0], x[2*i+1]` in the C code). -/
abbrev Pt : Type := ℚ × ℚ

/-! ## Section: Katz algorithm (`pkatz.c`, SECTION 3) -/

/-- The distance `r = hypot(x[0] - c[0], x[1] - c[1])` computed at the top of
`invert_point_flip` (pkatz.c line 141): the divisor of the flip formula. -/
noncomputable def katz_r (c x : ℝ × ℝ) : ℝ :=
  Real.sqrt ((x.1 - c.1) ^ 2 + (x.2 - c.2) ^ 2)

/-- Function `invert_point_flip` (pkatz.c lines 139–144): the "Katz" flip inversion
`y = x + 2*(R-r)*(x-c)/r` applied componentwise, with `r = hypot(x-c)`.
The C code divides by `r` unconditionally (no guard for `r == 0`). -/
noncomputable def invert_point_flip (c : ℝ × ℝ) (R : ℝ) (x : ℝ × ℝ) : ℝ × ℝ :=
  (x.1 + 2 * (R - katz_r c x) * (x.1 - c.1) / katz_r c x,
   x.2 + 2 * (R - katz_r c x) * (x.2 - c.2) / katz_r c x)

/-- Function `invert_point` (pkatz.c lines 146–149) delegates to the flip variant. -/
noncomputable def invert_point (c : ℝ × ℝ) (R : ℝ) (x : ℝ × ℝ) : ℝ × ℝ :=
  invert_point_flip c R x

/-! ## Section: lexicographic sort and convex hull (`pkatz.c`, SECTION 3) -/

/-- The order decided by `compare_points_lexicographically` (pkatz.c lines
164–173): first coordinate ascending, ties broken by second coordinate. -/
def lexLe (a b : Pt) : Prop :=
  a.1 < b.1 ∨ (a.1 = b.1 ∧ a.2 ≤ b.2)

instance : DecidableRel lexLe := fun a b => by
  unfold lexLe; infer_instance

/-- The `qsort` call of `do_the_andrew_parkour` (pkatz.c line 192): the point
array sorted ascending by `compare_points_lexicographically`.  (`qsort` is
unstable, but the comparator returns 0 only on coordinatewise-equal points,
so any sort for `lexLe` yields the same list.) -/
def sortLex (l : List Pt) : List Pt :=
  l.insertionSort lexLe

/-- Function `det` (pkatz.c lines 176–181): twice the oriented area of the triangle
`(a, b, c)`, the cross product of `b - a` and `c - a`. -/
def det (a b c : Pt) : ℚ :=
  (b.1 - a.1) * (c.2 - a.2) - (b.2 - a.2) * (c.1 - a.1)

/-- The pop loop of the hull scans (pkatz.c lines 200–201 and 211–212): the
stack is kept top-first; while the stack holds at least `minLen` points
(`r >= 2` for the lower hull, `r >= k` for the upper hull) and the top two
points make a non-left turn with the candidate `p` (`det <= 0`), pop. -/
def popLoop (minLen : ℕ) (p : Pt) : List Pt → List Pt
  | b :: a :: s =>
      if minLen ≤ s.length + 2 ∧ det a b p ≤ 0
      then popLoop minLen p (a :: s)
      else b :: a :: s
  | s => s

/-- One iteration of either hull scan (pkatz.c lines 198–205, 209–216):
pop while the turn is non-left, then push the candidate point. -/
def chainStep (minLen : ℕ) (st : List Pt) (p : Pt) : List Pt :=
  p :: popLoop minLen p st

/-- Function `do_the_andrew_parkour` (pkatz.c lines 185–219).  Returns the pair
(hull traversal `y[0..r-1]`, final contents of the input array `x`): the C
function sorts `x` in place, builds the lower hull over the sorted points,
then continues on the same stack with the upper hull scanned right-to-left
(`i = n-2 .. 0`) with pop threshold `k = r + 1`. -/
def do_the_andrew_parkour (x : List Pt) : List Pt × List Pt :=
  let s := sortLex x
  let lo := s.foldl (chainStep 2) []
  let k := lo.length + 1
  let up := (s.dropLast.reverse).foldl (chainStep k) lo
  (up.reverse, s)

/-! ## Auxiliary lemmas on the hull stack -/

theorem popLoop_length_le (minLen : ℕ) (p : Pt) :
    ∀ s : List Pt, (popLoop minLen p s).length ≤ s.length := by
  intro s
  induction s with
  | nil => simp [popLoop]
  | cons b t ih =>
      cases t with
      | nil => simp [popLoop]
      | cons a s' =>
          rw [popLoop]
          split
          · exact le_trans (by simpa using ih) (by simp)
          · simp

theorem chainStep_length_le (minLen : ℕ) (st : List Pt) (p : Pt) :
    (chainStep minLen st p).length ≤ st.length + 1 := by
  simpa [chainStep] using popLoop_length_le minLen p st

theorem foldl_chainStep_length_le (minLen : ℕ) :
    ∀ (l : List Pt) (st : List Pt),
      (l.foldl (chainStep minLen) st).length ≤ st.length + l.length := by
  intro l
  induction l with
  | nil => simp
  | cons p t ih =>
      intro st
      calc (List.foldl (chainStep minLen) (chainStep minLen st p) t).length
          ≤ (chainStep minLen st p).length + t.length := ih _
        _ ≤ (st.length + 1) + t.length := by
            exact Nat.add_le_add_right (chainStep_length_le minLen st p) _
        _ = st.length + (p :: t).length := by simp [Nat.add_comm, Nat.add_assoc,
            Nat.add_left_comm]

theorem sortLex_length (l : List Pt) : (sortLex l).length = l.length := by
  simpa [sortLex] using List.Perm.length_eq (List.perm_insertionSort lexLe l)

/-! ## Section: constants (`pkatz.c` lines 14–24, and `ftr.h`) -/

/-- Constant `DISK_RADIUS` (pkatz.c line 15): radius of the control-point disk. -/
def DISK_RADIUS : ℚ := 73 / 10

/-- Constant `POINT_RADIUS` (pkatz.c line 18): radius of the displayed points. -/
def POINT_RADIUS : ℚ := 23 / 10

/-- Constant `ZOOM_FACTOR` (pkatz.c line 21): multiplicative zoom step. -/
def ZOOM_FACTOR : ℚ := 143 / 100

/-- Constant `RADIUS_FACTOR` (pkatz.c line 24): inversion-radius scaling step. -/
def RADIUS_FACTOR : ℚ := 113 / 100

/-- Modelled from the spec: `ftr.h` is not part of the sources, so the button
codes it defines are modelled here.  The spec only requires that button ids be
distinct and that "the button id's sign encodes press/release" (a press
delivers `+id`, a release `-id`); the values below are distinct powers of two
(doubling as motion masks) and distinct from every key code the handlers
compare against.  No claim depends on the particular values. -/
def FTR_BUTTON_LEFT : ℤ := 256

/-- Modelled from the spec: middle-button code from the missing `ftr.h`. -/
def FTR_BUTTON_MIDDLE : ℤ := 512

/-- Modelled from the spec: right-button code from the missing `ftr.h`. -/
def FTR_BUTTON_RIGHT : ℤ := 1024

/-- Modelled from the spec: wheel-up button code from the missing `ftr.h`. -/
def FTR_BUTTON_UP : ℤ := 2048

/-- Modelled from the spec: wheel-down button code from the missing `ftr.h`. -/
def FTR_BUTTON_DOWN : ℤ := 4096

/-- Modelled from the spec: left-arrow key code from the missing `ftr.h`;
distinct from every ASCII code used by `event_key`. -/
def FTR_KEY_LEFT : ℤ := 1000

/-- Modelled from the spec: up-arrow key code from the missing `ftr.h`. -/
def FTR_KEY_UP : ℤ := 1001

/-- Modelled from the spec: right-arrow key code from the missing `ftr.h`. -/
def FTR_KEY_RIGHT : ℤ := 1002

/-- Modelled from the spec: down-arrow key code from the missing `ftr.h`. -/
def FTR_KEY_DOWN : ℤ := 1003

/-! ## Section: viewer state (`pkatz.c` lines 27–59)

The point buffers `n, x, y, z, m` of `struct viewer_state` are per-frame
data consumed only by the rendering pipeline; they are modelled by the
standalone functions above (`invert_point`, `do_the_andrew_parkour`) and
omitted from the event-state record, which no event handler reads or
writes except through those functions. -/

/-- Structure `struct viewer_state` (pkatz.c lines 27–59), event-relevant fields. -/
structure viewer_state where
  /-- Field `c[2]`: center of the inversion. -/
  c : ℚ × ℚ
  /-- Field `r`: radius of the inversion. -/
  r : ℚ
  /-- Field `offset[2]`: viewport offset. -/
  offset : ℚ × ℚ
  /-- Field `scale`: viewport scale. -/
  scale : ℚ
  dragging_window_point : Bool
  dragging_image_point : Bool
  dragging_background : Bool
  dragged_point : ℤ
  drag_handle : ℤ × ℤ
  interpolation_order : ℤ
  tile_plane : Bool
  show_horizon : Bool
  show_grid_points : Bool
  restrict_to_affine : Bool
  show_debug : Bool
deriving DecidableEq

/-- The `struct FTR` fields touched by the handlers (window size, the
`changed` repaint flag, the exit request raised by
`ftr_notify_the_desire_to_stop_this_loop`) together with the `userdata`
viewer state. -/
structure FTR where
  w : ℕ
  h : ℕ
  changed : Bool
  stop : Bool
  userdata : viewer_state
deriving DecidableEq

/-- Function `center_view` (pkatz.c lines 63–92): reset inversion parameters, drag
state, viewport and display options to their defaults and mark changed. -/
def center_view (f : FTR) : FTR :=
  { f with
    changed := true
    userdata := { f.userdata with
      c := (100, 100), r := 400,
      dragging_window_point := false, dragging_image_point := false,
      dragged_point := -1, dragging_background := false,
      offset := (0, 0), scale := 1,
      interpolation_order := 0, tile_plane := false, show_horizon := false,
      show_grid_points := false, restrict_to_affine := false,
      show_debug := false } }

/-! ## Section: coordinate conversions (`pkatz.c`, SECTION 4) -/

/-- Function `map_view_to_window` (pkatz.c lines 238–242):
`y[k] = offset[k] + scale * x[k]`. -/
def map_view_to_window (e : viewer_state) (x : ℚ × ℚ) : ℚ × ℚ :=
  (e.offset.1 + e.scale * x.1, e.offset.2 + e.scale * x.2)

/-- Function `map_window_to_view` (pkatz.c lines 245–249):
`y[k] = (x[k] - offset[k]) / scale`. -/
def map_window_to_view (e : viewer_state) (x : ℚ × ℚ) : ℚ × ℚ :=
  ((x.1 - e.offset.1) / e.scale, (x.2 - e.offset.2) / e.scale)

/-! ## Section: user-interface actions and events (`pkatz.c`, SECTION 8) -/

/-- Function `change_view_offset` (pkatz.c lines 555–559). -/
def change_view_offset (e : viewer_state) (dx dy : ℚ) : viewer_state :=
  { e with offset := (e.offset.1 + dx, e.offset.2 + dy) }

/-- Function `change_view_scale` (pkatz.c lines 562–570): zoom about the window point
`(x, y)`: pull `(x,y)` back to view space, multiply the scale by `fac`, then
recenter the offset so that pulled-back point maps to `(x,y)` again. -/
def change_view_scale (e : viewer_state) (x y : ℚ) (fac : ℚ) : viewer_state :=
  let X : ℚ × ℚ := (x, y)
  let center := map_window_to_view e X
  let e' := { e with scale := e.scale * fac }
  { e' with offset := (-center.1 * e'.scale + X.1, -center.2 * e'.scale + X.2) }

/-- Function `change_radius` (pkatz.c lines 573–577). -/
def change_radius (e : viewer_state) (x y : ℚ) (fac : ℚ) : viewer_state :=
  { e with r := e.r * fac }

/-- Function `drag_point_in_window_domain` (pkatz.c lines 580–584): relocate the
inversion center to the view-space preimage of the window point `(x,y)`. -/
def drag_point_in_window_domain (e : viewer_state) (x y : ℚ) : viewer_state :=
  { e with c := map_window_to_view e (x, y) }

/-- Function `hit_point` (pkatz.c lines 587–594): 0 when `(x,y)` lies within
`2 + DISK_RADIUS` of the window projection of the inversion center, else -1.
The C test `hypot(P[0]-x, P[1]-y) < 2 + DISK_RADIUS` is encoded by the
equivalent squared comparison (both sides are nonnegative and
`2 + DISK_RADIUS > 0`); `hit_point_eq_zero_iff` below proves the encoding
equal to the literal square-root formulation. -/
def hit_point (e : viewer_state) (x y : ℚ) : ℤ :=
  let P := map_view_to_window e e.c
  if (P.1 - x) ^ 2 + (P.2 - y) ^ 2 < (2 + DISK_RADIUS) ^ 2 then 0 else -1

/-- The squared encoding in `hit_point` agrees with the C source's
`hypot(P[0]-x, P[1]-y) < 2 + DISK_RADIUS` test. -/
theorem hit_point_eq_zero_iff (e : viewer_state) (x y : ℚ) :
    hit_point e x y = 0 ↔
      Real.sqrt (((map_view_to_window e e.c).1 - x : ℚ) ^ 2 +
          ((map_view_to_window e e.c).2 - y : ℚ) ^ 2) <
        ((2 + DISK_RADIUS : ℚ) : ℝ) := by
  have hpos : (0 : ℝ) < ((2 + DISK_RADIUS : ℚ) : ℝ) := by
    norm_num [DISK_RADIUS]
  rw [Real.sqrt_lt' hpos, hit_point]
  constructor
  · intro h
    by_cases hc : ((map_view_to_window e e.c).1 - x) ^ 2 +
        ((map_view_to_window e e.c).2 - y) ^ 2 < (2 + DISK_RADIUS) ^ 2
    · push_cast
      exact_mod_cast hc
    · simp [hc] at h
  · intro h
    have hc : ((map_view_to_window e e.c).1 - x) ^ 2 +
        ((map_view_to_window e e.c).2 - y) ^ 2 < (2 + DISK_RADIUS) ^ 2 := by
      exact_mod_cast h
    simp [hc]

/-- Function `event_key` (pkatz.c lines 597–626): `q` requests exit and returns
immediately; otherwise the chain of `if` statements runs on the evolving
state, and finally `dragging_window_point` and `dragging_image_point` are
cleared and the window is marked changed. -/
def event_key (f : FTR) (k m x y : ℤ) : FTR :=
  if k = 113 then { f with stop := true }   -- 'q'
  else
    let f := if k = 99 then center_view f else f   -- 'c'
    let e := f.userdata
    let e := if k = 106 then change_view_offset e 0 (-10) else e   -- 'j'
    let e := if k = 107 then change_view_offset e 0 10 else e   -- 'k'
    let e := if k = 104 then change_view_offset e 10 0 else e   -- 'h'
    let e := if k = 108 then change_view_offset e (-10) 0 else e   -- 'l'
    let e := if k = FTR_KEY_DOWN then change_view_offset e 0 (-100) else e
    let e := if k = FTR_KEY_UP then change_view_offset e 0 100 else e
    let e := if k = FTR_KEY_RIGHT then change_view_offset e (-100) 0 else e
    let e := if k = FTR_KEY_LEFT then change_view_offset e 100 0 else e
    let e := if k = 43 then   -- '+'
      change_view_scale e (f.w / 2 : ℕ) (f.h / 2 : ℕ) ZOOM_FACTOR else e
    let e := if k = 45 then   -- '-'
      change_view_scale e (f.w / 2 : ℕ) (f.h / 2 : ℕ) (1 / ZOOM_FACTOR) else e
    let e := if k = 112 then { e with tile_plane := !e.tile_plane } else e
    let e := if k = 119 then { e with show_horizon := !e.show_horizon } else e
    let e := if 48 ≤ k ∧ k ≤ 57 then   -- '0'..'9'
      { e with interpolation_order := k - 48 } else e
    let e := if k = 46 then   -- '.'
      { e with show_grid_points := !e.show_grid_points } else e
    let e := if k = 100 then { e with show_debug := !e.show_debug } else e   -- 'd'
    let e := { e with dragging_window_point := false,
                      dragging_image_point := false }
    { f with userdata := e, changed := true }

/-- Function `event_resize` (pkatz.c lines 629–632). -/
def event_resize (f : FTR) (k m x y : ℤ) : FTR :=
  { f with changed := true }

/-- Function `event_button` (pkatz.c lines 635–697): the five drag clauses followed by
the wheel zoom/radius clauses, run in source order on the evolving state;
`p` is the hit test computed once on entry, and the background/wheel clauses
re-invoke `hit_point` on the current state exactly as the source does. -/
def event_button (f : FTR) (k m x y : ℤ) : FTR :=
  let e := f.userdata
  let p := hit_point e x y
  -- begin dragging a control point in the WINDOW DOMAIN
  let e := if k = FTR_BUTTON_LEFT ∧ 0 ≤ p then
      { e with dragged_point := p, dragging_window_point := true } else e
  -- end dragging a control point in the WINDOW DOMAIN
  let e := if e.dragging_window_point = true ∧ k = -FTR_BUTTON_LEFT then
      { drag_point_in_window_domain e x y with
        dragging_window_point := false, dragged_point := -1 } else e
  -- begin dragging a control point in the IMAGE DOMAIN
  let e := if k = FTR_BUTTON_RIGHT ∧ 0 ≤ p then
      { e with dragged_point := p, dragging_image_point := true } else e
  -- begin dragging the WINDOW BACKGROUND
  let e := if k = FTR_BUTTON_LEFT ∧ hit_point e x y < 0 then
      { e with drag_handle := (x, y), dragging_background := true } else e
  -- end dragging the WINDOW BACKGROUND
  let e := if e.dragging_background = true ∧ k = -FTR_BUTTON_LEFT then
      { change_view_offset e (x - e.drag_handle.1 : ℤ) (y - e.drag_handle.2 : ℤ)
        with dragging_background := false } else e
  -- radius in/out (if hit), zoom in/out (if no hit)
  let e := if k = FTR_BUTTON_DOWN then
      (if hit_point e x y < 0 then change_view_scale e x y ZOOM_FACTOR
       else change_radius e x y RADIUS_FACTOR) else e
  let e := if k = FTR_BUTTON_UP then
      (if hit_point e x y < 0 then change_view_scale e x y (1 / ZOOM_FACTOR)
       else change_radius e x y (1 / RADIUS_FACTOR)) else e
  { f with userdata := e, changed := true }

/-- Function `event_motion` (pkatz.c lines 700–721): realtime feedback for the
window-point and background drags while the left button is held in the
motion mask `m`. -/
def event_motion (f : FTR) (b m x y : ℤ) : FTR :=
  let e := f.userdata
  let f := if e.dragging_window_point = true ∧ Int.land m FTR_BUTTON_LEFT ≠ 0 then
      { f with userdata := drag_point_in_window_domain e x y, changed := true }
    else f
  let e := f.userdata
  let f := if e.dragging_background = true ∧ Int.land m FTR_BUTTON_LEFT ≠ 0 then
      { f with
        userdata :=
          { change_view_offset e (x - e.drag_handle.1 : ℤ)
              (y - e.drag_handle.2 : ℤ) with drag_handle := (x, y) }
        changed := true }
    else f
  f

/-- One delivered input event: the four handler kinds `main_pkatz` registers
(pkatz.c lines 801–805), with the raw integer arguments of each callback. -/
inductive ftr_event where
  | key (k m x y : ℤ)
  | button (k m x y : ℤ)
  | motion (b m x y : ℤ)
  | resize (k m x y : ℤ)
deriving DecidableEq

/-- Dispatch one event to its handler. -/
def ftr_step (f : FTR) : ftr_event → FTR
  | .key k m x y => event_key f k m x y
  | .button k m x y => event_button f k m x y
  | .motion b m x y => event_motion f b m x y
  | .resize k m x y => event_resize f k m x y

/-- The startup state built by `main_pkatz` (pkatz.c lines 786–798): an
800×600 window whose viewer state is then initialised by `center_view`.
`drag_handle` is not initialised by the C code before its first use; it is
`(0, 0)` here (its value is irrelevant until a background drag begins), and
every other field is overwritten by `center_view`. -/
def initial_ftr : FTR :=
  center_view
    { w := 800, h := 600, changed := false, stop := false,
      userdata :=
        { c := (0, 0), r := 0, offset := (0, 0), scale := 0,
          dragging_window_point := false, dragging_image_point := false,
          dragging_background := false, dragged_point := 0,
          drag_handle := (0, 0), interpolation_order := 0,
          tile_plane := false, show_horizon := false,
          show_grid_points := false, restrict_to_affine := false,
          show_debug := false } }

/-- The state after delivering a list of events to the freshly started
viewer. -/
def run_events (l : List ftr_event) : FTR :=
  l.foldl ftr_step initial_ftr

/-! ## Section: drawing (`pkatz.c`, SECTION 7) -/

/-- The straight-walk branch of `traverse_segment` (pkatz.c lines 264–274),
reached once the endpoints are distinct and ordered (`px+py <= qx+qy`): the
near-horizontal branch steps `i = 0 .. qx-px-1` in `x`, rounding the
interpolated `y`; the near-vertical branch steps `j = 0 .. qy-py` in `y`,
rounding the interpolated `x`.  `lrint` is modelled by `round` on the exact
slope. -/
def traverse_straight (px py qx qy : ℤ) : List (ℤ × ℤ) :=
  if qx - px > qy - py ∨ px - qx > qy - py then   -- horizontal
    let slope : ℚ := ((qy - py : ℤ) : ℚ) / ((qx - px : ℤ) : ℚ)
    (List.range (qx - px).toNat).map
      (fun (i : ℕ) => (px + (i : ℤ), round ((py : ℚ) + (i : ℚ) * slope)))
  else   -- vertical
    let slope : ℚ := ((qx - px : ℤ) : ℚ) / ((qy - py : ℤ) : ℚ)
    (List.range ((qy - py).toNat + 1)).map
      (fun (j : ℕ) => (round ((px : ℚ) + (j : ℚ) * slope), py + (j : ℤ)))

/-- Function `traverse_segment` (pkatz.c lines 257–275): the list of pixels passed to
the plot callback `f`, in call order.  Coincident endpoints plot a single
pixel; "bad quadrants" (`qx+qy < px+py`) swap the endpoints through one
recursive call; otherwise the straight walk runs. -/
def traverse_segment (px py qx qy : ℤ) : List (ℤ × ℤ) :=
  if px = qx ∧ py = qy then [(px, py)]
  else if qx + qy < px + py then traverse_segment qx qy px py
  else traverse_straight px py qx qy
termination_by (px + py - qx - qy).toNat
decreasing_by
  simp_wf
  omega

/-! ## Claim theorems -/

/-- Helper: the Katz divisor at the fixed case `c = (0,0)`, `p = (20,0)`. -/
theorem katz_r_fixed_case : katz_r ((0:ℝ), 0) (20, 0) = 20 := by
  have h : ((20:ℝ) - 0) ^ 2 + ((0:ℝ) - 0) ^ 2 = 20 ^ 2 := by norm_num
  rw [katz_r]
  simp only [h]
  exact Real.sqrt_sq (by norm_num)

/-- C1: for every point `p` with `r = distance(p, c) ≠ 0`, the inversion map
returns `q = p + 2*(R - r)*(p - c)/r` componentwise; in particular, for
center `(0,0)`, radius `10`, `p = (20,0)`, it returns exactly `(0,0)`. -/
theorem C1_invert_flip_formula :
    (∀ (c : ℝ × ℝ) (R : ℝ) (x : ℝ × ℝ), katz_r c x ≠ 0 →
      invert_point_flip c R x =
        (x.1 + 2 * (R - katz_r c x) * (x.1 - c.1) / katz_r c x,
         x.2 + 2 * (R - katz_r c x) * (x.2 - c.2) / katz_r c x)) ∧
    invert_point_flip ((0:ℝ), 0) 10 (20, 0) = (0, 0) := by
  constructor
  · intro c R x _
    rfl
  · rw [invert_point_flip, katz_r_fixed_case]
    norm_num

/-- C1 witness: the general formula applied at the concrete fixed case,
whose hypothesis `r ≠ 0` is discharged by `r = 20`. -/
theorem C1_invert_flip_formula_witness :
    invert_point_flip ((0:ℝ), 0) 10 (20, 0) =
      ((20:ℝ) + 2 * (10 - katz_r ((0:ℝ), 0) (20, 0)) * (20 - 0) /
          katz_r ((0:ℝ), 0) (20, 0),
       (0:ℝ) + 2 * (10 - katz_r ((0:ℝ), 0) (20, 0)) * (0 - 0) /
          katz_r ((0:ℝ), 0) (20, 0)) :=
  C1_invert_flip_formula.1 ((0:ℝ), 0) 10 (20, 0)
    (by rw [katz_r_fixed_case]; norm_num)

/-- C2: the claim asserts a guard for `r == 0`; the code has none.  When the
input point coincides with the pole, the divisor `r` computed by
`invert_point_flip` is exactly `0`, and the function divides by it
unconditionally (in C float arithmetic `0/0` is NaN, so the result is not
`p` unchanged). -/
theorem C2_divisor_zero_at_pole :
    ∀ c : ℝ × ℝ, katz_r c c = 0 := by
  intro c
  rw [katz_r]
  simp

/-- C3: the hull of the three collinear points `(0,0), (1,0), (2,0)` holds
exactly the two extreme points; the middle point is absent. -/
theorem C3_collinear_hull :
    (do_the_andrew_parkour [((0:ℚ), 0), (1, 0), (2, 0)]).1.toFinset
        = {((0:ℚ), (0:ℚ)), ((2:ℚ), (0:ℚ))} ∧
    ((1:ℚ), (0:ℚ)) ∉ (do_the_andrew_parkour [((0:ℚ), 0), (1, 0), (2, 0)]).1 := by
  have h : (do_the_andrew_parkour [((0:ℚ), 0), (1, 0), (2, 0)]).1
      = [(0, 0), (2, 0), (0, 0)] := by
    norm_num [do_the_andrew_parkour, sortLex, List.insertionSort,
      List.orderedInsert, lexLe, chainStep, popLoop, det]
  rw [h]
  constructor
  · decide
  · decide

/-- C4 counterexample: for the triangle `(0,0), (1,1), (2,0)` (n = 3) the
returned traversal has 4 points, so `m ≤ n` fails. -/
theorem C4_hull_count_counterexample :
    ¬ ((do_the_andrew_parkour [((0:ℚ), 0), (1, 1), (2, 0)]).1.length
        ≤ ([((0:ℚ), 0), (1, 1), (2, 0)] : List Pt).length) := by
  have h : (do_the_andrew_parkour [((0:ℚ), 0), (1, 1), (2, 0)]).1
      = [(0, 0), (2, 0), (1, 1), (0, 0)] := by
    norm_num [do_the_andrew_parkour, sortLex, List.insertionSort,
      List.orderedInsert, lexLe, chainStep, popLoop, det]
  rw [h]
  decide

/-- C4 (amended): the traversal returned by the hull computation repeats
points (the lower-hull scan pushes up to `n` points and the upper-hull scan
up to `n - 1` more), so the correct bound is `m ≤ 2n`, not `m ≤ n`. -/
theorem C4_hull_count_le_twice :
    ∀ x : List Pt, (do_the_andrew_parkour x).1.length ≤ 2 * x.length := by
  intro x
  show ((sortLex x).dropLast.reverse.foldl
      (chainStep (((sortLex x).foldl (chainStep 2) []).length + 1))
      ((sortLex x).foldl (chainStep 2) [])).reverse.length ≤ 2 * x.length
  rw [List.length_reverse]
  have h1 : ((sortLex x).foldl (chainStep 2) []).length ≤ x.length := by
    have := foldl_chainStep_length_le 2 (sortLex x) []
    simpa [sortLex_length] using this
  have h2 := foldl_chainStep_length_le
    (((sortLex x).foldl (chainStep 2) []).length + 1)
    ((sortLex x).dropLast.reverse) ((sortLex x).foldl (chainStep 2) [])
  have h3 : ((sortLex x).dropLast.reverse).length ≤ x.length := by
    rw [List.length_reverse, List.length_dropLast, sortLex_length]
    omega
  omega

/-- C5 counterexample: the hull computation sorts its input array in place:
passing the points `(1,0), (0,0)` leaves the buffer holding `(0,0), (1,0)`,
not the original order. -/
theorem C5_input_mutated_counterexample :
    (do_the_andrew_parkour [((1:ℚ), 0), (0, 0)]).2 ≠ [((1:ℚ), 0), ((0:ℚ), 0)] := by
  have h : (do_the_andrew_parkour [((1:ℚ), 0), (0, 0)]).2 = [(0, 0), (1, 0)] := by
    norm_num [do_the_andrew_parkour, sortLex, List.insertionSort,
      List.orderedInsert, lexLe]
  rw [h]
  decide

instance : IsTotal Pt lexLe where
  total a b := by
    rcases lt_trichotomy a.1 b.1 with h | h | h
    · exact Or.inl (Or.inl h)
    · rcases le_total a.2 b.2 with h2 | h2
      · exact Or.inl (Or.inr ⟨h, h2⟩)
      · exact Or.inr (Or.inr ⟨h.symm, h2⟩)
    · exact Or.inr (Or.inl h)

instance : IsTrans Pt lexLe where
  trans a b c hab hbc := by
    rcases hab with h1 | ⟨h1, h1'⟩ <;> rcases hbc with h2 | ⟨h2, h2'⟩
    · exact Or.inl (h1.trans h2)
    · exact Or.inl (h2 ▸ h1)
    · exact Or.inl (h1 ▸ h2)
    · exact Or.inr ⟨h1.trans h2, h1'.trans h2'⟩

/-- C5 (amended): after the hull computation, the input buffer holds the
same points as before (a permutation), but sorted lexicographically in
place, not in the original order. -/
theorem C5_input_sorted_perm :
    ∀ x : List Pt, ((do_the_andrew_parkour x).2).Perm x ∧
      List.Sorted lexLe (do_the_andrew_parkour x).2 := by
  intro x
  constructor
  · exact List.perm_insertionSort lexLe x
  · exact List.sorted_insertionSort lexLe x

/-- C6: for every transform with `scale ≠ 0` and every point `p`,
`toView (toWindow p) = p` exactly. -/
theorem C6_transform_round_trip :
    ∀ (e : viewer_state) (p : ℚ × ℚ), e.scale ≠ 0 →
      map_window_to_view e (map_view_to_window e p) = p := by
  intro e p h
  rw [map_view_to_window, map_window_to_view, Prod.ext_iff]
  constructor <;> (dsimp only; field_simp)

/-- C6 witness: the round trip at a concrete transform and point. -/
theorem C6_transform_round_trip_witness :
    map_window_to_view
      { c := (100, 100), r := 400, offset := (3, -7), scale := 2,
        dragging_window_point := false, dragging_image_point := false,
        dragging_background := false, dragged_point := -1,
        drag_handle := (0, 0), interpolation_order := 0, tile_plane := false,
        show_horizon := false, show_grid_points := false,
        restrict_to_affine := false, show_debug := false }
      (map_view_to_window
        { c := (100, 100), r := 400, offset := (3, -7), scale := 2,
          dragging_window_point := false, dragging_image_point := false,
          dragging_background := false, dragged_point := -1,
          drag_handle := (0, 0), interpolation_order := 0, tile_plane := false,
          show_horizon := false, show_grid_points := false,
          restrict_to_affine := false, show_debug := false }
        (5, 13)) = (5, 13) :=
  C6_transform_round_trip _ (5, 13) (by norm_num)

/-- C7: pressing `+` (key 43) zooms about the window center `(w/2, h/2)`:
the scale is multiplied by `ZOOM_FACTOR`, and any view-space point that
projected to the window center before the zoom still projects to the window
center after it. -/
theorem C7_zoom_recenters :
    ∀ (f : FTR) (m x y : ℤ) (p : ℚ × ℚ),
      f.userdata.scale ≠ 0 →
      map_view_to_window f.userdata p
        = (((f.w / 2 : ℕ) : ℚ), ((f.h / 2 : ℕ) : ℚ)) →
      (event_key f 43 m x y).userdata.scale
        = f.userdata.scale * ZOOM_FACTOR ∧
      map_view_to_window (event_key f 43 m x y).userdata p
        = (((f.w / 2 : ℕ) : ℚ), ((f.h / 2 : ℕ) : ℚ)) := by
  intro f m x y p hs hp
  have he : event_key f 43 m x y =
      { f with
          changed := true
          userdata :=
            { change_view_scale f.userdata ((f.w / 2 : ℕ) : ℚ)
                ((f.h / 2 : ℕ) : ℚ) ZOOM_FACTOR with
              dragging_window_point := false
              dragging_image_point := false } } := by
    rw [event_key]
    norm_num [FTR_KEY_DOWN, FTR_KEY_UP, FTR_KEY_RIGHT, FTR_KEY_LEFT]
  rw [Prod.ext_iff] at hp
  obtain ⟨h1, h2⟩ := hp
  simp only [map_view_to_window] at h1 h2
  rw [he]
  constructor
  · rfl
  · simp only [map_view_to_window, change_view_scale, map_window_to_view]
    rw [Prod.ext_iff]
    constructor
    · show -((((f.w / 2 : ℕ) : ℚ) - f.userdata.offset.1) / f.userdata.scale)
          * (f.userdata.scale * ZOOM_FACTOR) + ((f.w / 2 : ℕ) : ℚ)
          + f.userdata.scale * ZOOM_FACTOR * p.1 = ((f.w / 2 : ℕ) : ℚ)
      field_simp
      linear_combination ZOOM_FACTOR * f.userdata.scale * h1
    · show -((((f.h / 2 : ℕ) : ℚ) - f.userdata.offset.2) / f.userdata.scale)
          * (f.userdata.scale * ZOOM_FACTOR) + ((f.h / 2 : ℕ) : ℚ)
          + f.userdata.scale * ZOOM_FACTOR * p.2 = ((f.h / 2 : ℕ) : ℚ)
      field_simp
      linear_combination ZOOM_FACTOR * f.userdata.scale * h2

/-- C7 witness: zooming the freshly started viewer (scale 1, offset 0,
window 800×600) about the window center `(400, 300)`. -/
theorem C7_zoom_recenters_witness :
    (event_key initial_ftr 43 0 0 0).userdata.scale
      = initial_ftr.userdata.scale * ZOOM_FACTOR ∧
    map_view_to_window (event_key initial_ftr 43 0 0 0).userdata (400, 300)
      = (((initial_ftr.w / 2 : ℕ) : ℚ), ((initial_ftr.h / 2 : ℕ) : ℚ)) :=
  C7_zoom_recenters initial_ftr 0 0 0 (400, 300)
    (by norm_num [initial_ftr, center_view])
    (by norm_num [initial_ftr, center_view, map_view_to_window])

/-! ## Drag-state machine lemmas -/

/-- All three drag flags are off (the `Idle` state of the drag machine). -/
def drag_flags_clear (e : viewer_state) : Prop :=
  e.dragging_window_point = false ∧ e.dragging_image_point = false ∧
  e.dragging_background = false

/-- At most one of the three drag flags is on. -/
def at_most_one_drag (e : viewer_state) : Prop :=
  ¬(e.dragging_window_point = true ∧ e.dragging_image_point = true) ∧
  ¬(e.dragging_window_point = true ∧ e.dragging_background = true) ∧
  ¬(e.dragging_image_point = true ∧ e.dragging_background = true)

/-- Function `change_view_offset` does not touch the drag flags. -/
theorem change_view_offset_drag_flags (e : viewer_state) (dx dy : ℚ) :
    (change_view_offset e dx dy).dragging_window_point
        = e.dragging_window_point ∧
    (change_view_offset e dx dy).dragging_image_point
        = e.dragging_image_point ∧
    (change_view_offset e dx dy).dragging_background
        = e.dragging_background :=
  ⟨rfl, rfl, rfl⟩

/-- Function `change_view_scale` does not touch the drag flags. -/
theorem change_view_scale_drag_flags (e : viewer_state) (x y fac : ℚ) :
    (change_view_scale e x y fac).dragging_window_point
        = e.dragging_window_point ∧
    (change_view_scale e x y fac).dragging_image_point
        = e.dragging_image_point ∧
    (change_view_scale e x y fac).dragging_background
        = e.dragging_background :=
  ⟨rfl, rfl, rfl⟩

/-- Function `change_radius` does not touch the drag flags. -/
theorem change_radius_drag_flags (e : viewer_state) (x y fac : ℚ) :
    (change_radius e x y fac).dragging_window_point
        = e.dragging_window_point ∧
    (change_radius e x y fac).dragging_image_point
        = e.dragging_image_point ∧
    (change_radius e x y fac).dragging_background
        = e.dragging_background :=
  ⟨rfl, rfl, rfl⟩

/-- Function `drag_point_in_window_domain` does not touch the drag flags. -/
theorem drag_point_in_window_domain_drag_flags (e : viewer_state) (x y : ℚ) :
    (drag_point_in_window_domain e x y).dragging_window_point
        = e.dragging_window_point ∧
    (drag_point_in_window_domain e x y).dragging_image_point
        = e.dragging_image_point ∧
    (drag_point_in_window_domain e x y).dragging_background
        = e.dragging_background :=
  ⟨rfl, rfl, rfl⟩

/-- Every key other than `q` (113) runs to the final line of `event_key`,
which clears `dragging_window_point` and `dragging_image_point`. -/
theorem event_key_clears_window_image (f : FTR) (k m x y : ℤ) (h : k ≠ 113) :
    (event_key f k m x y).userdata.dragging_window_point = false ∧
    (event_key f k m x y).userdata.dragging_image_point = false := by
  rw [event_key, if_neg h]
  exact ⟨rfl, rfl⟩

/-- C8 (amended): from the Idle state (all drag flags clear), a single event
of any kind leaves at most one drag flag set. -/
theorem C8_single_event_exclusive :
    ∀ (f : FTR) (ev : ftr_event), drag_flags_clear f.userdata →
      at_most_one_drag (ftr_step f ev).userdata := by
  intro f ev h
  obtain ⟨hw, hi, hb⟩ := h
  cases ev with
  | key k m x y =>
      by_cases hk : k = 113
      · subst hk
        rw [ftr_step, event_key, if_pos rfl]
        simp [at_most_one_drag, hw, hi, hb]
      · have hc := event_key_clears_window_image f k m x y hk
        simp [ftr_step, at_most_one_drag, hc.1, hc.2]
  | button k m x y =>
      by_cases hg : ((f.userdata.offset.1 + f.userdata.scale * f.userdata.c.1
            - (x : ℚ)) ^ 2 +
          (f.userdata.offset.2 + f.userdata.scale * f.userdata.c.2
            - (y : ℚ)) ^ 2 <
          (2 + DISK_RADIUS) ^ 2)
      all_goals by_cases hL : k = FTR_BUTTON_LEFT
      all_goals by_cases hR : k = FTR_BUTTON_RIGHT
      all_goals by_cases hD : k = FTR_BUTTON_DOWN
      all_goals by_cases hU : k = FTR_BUTTON_UP
      all_goals try (
        exfalso
        simp only [FTR_BUTTON_LEFT, FTR_BUTTON_RIGHT, FTR_BUTTON_DOWN,
          FTR_BUTTON_UP] at hL hR hD hU
        omega)
      all_goals
        simp [ftr_step, event_button, at_most_one_drag, hit_point,
          map_view_to_window, hg, hw, hi, hb, change_view_scale_drag_flags,
          change_radius_drag_flags,
          (by decide : FTR_BUTTON_LEFT ≠ -FTR_BUTTON_LEFT),
          (by decide : FTR_BUTTON_LEFT ≠ FTR_BUTTON_RIGHT),
          (by decide : FTR_BUTTON_LEFT ≠ FTR_BUTTON_DOWN),
          (by decide : FTR_BUTTON_LEFT ≠ FTR_BUTTON_UP),
          (by decide : FTR_BUTTON_RIGHT ≠ FTR_BUTTON_LEFT),
          (by decide : FTR_BUTTON_RIGHT ≠ -FTR_BUTTON_LEFT),
          (by decide : FTR_BUTTON_RIGHT ≠ FTR_BUTTON_DOWN),
          (by decide : FTR_BUTTON_RIGHT ≠ FTR_BUTTON_UP),
          (by decide : FTR_BUTTON_DOWN ≠ FTR_BUTTON_LEFT),
          (by decide : FTR_BUTTON_DOWN ≠ -FTR_BUTTON_LEFT),
          (by decide : FTR_BUTTON_DOWN ≠ FTR_BUTTON_RIGHT),
          (by decide : FTR_BUTTON_DOWN ≠ FTR_BUTTON_UP),
          (by decide : FTR_BUTTON_UP ≠ FTR_BUTTON_LEFT),
          (by decide : FTR_BUTTON_UP ≠ -FTR_BUTTON_LEFT),
          (by decide : FTR_BUTTON_UP ≠ FTR_BUTTON_RIGHT),
          (by decide : FTR_BUTTON_UP ≠ FTR_BUTTON_DOWN),
          hL, hR, hD, hU]
  | motion b m x y =>
      rw [ftr_step, event_motion]
      simp only [hw, hb]
      simp [at_most_one_drag, hw, hi, hb]
  | resize k m x y =>
      simp [ftr_step, event_resize, at_most_one_drag, hw, hi, hb]

/-- C8 witness: one event applied to the freshly started viewer, whose drag
flags are all clear. -/
theorem C8_single_event_exclusive_witness :
    at_most_one_drag (ftr_step initial_ftr (ftr_event.key 106 0 0 0)).userdata :=
  C8_single_event_exclusive initial_ftr (ftr_event.key 106 0 0 0)
    (by simp [initial_ftr, center_view, drag_flags_clear])

/-- C8 counterexample: from the initial state, a left press on the center
handle at `(100,100)` followed by a right press there leaves BOTH
`dragging_window_point` and `dragging_image_point` set (a right press never
clears the window drag, and no button-release was delivered in between), so
the claimed invariant fails on a reachable state. -/
theorem C8_two_drags_reachable :
    ¬ at_most_one_drag (run_events
        [ftr_event.button FTR_BUTTON_LEFT 0 100 100,
         ftr_event.button FTR_BUTTON_RIGHT 0 100 100]).userdata := by
  norm_num [at_most_one_drag, run_events, ftr_step, initial_ftr, center_view,
    event_button, hit_point, map_view_to_window, map_window_to_view,
    drag_point_in_window_domain, change_view_offset, change_view_scale,
    change_radius, DISK_RADIUS, FTR_BUTTON_LEFT, FTR_BUTTON_RIGHT,
    FTR_BUTTON_DOWN, FTR_BUTTON_UP]

/-- C9 (amended): every key except `q` (113, which requests exit and returns
without touching the state) clears `dragging_window_point` and
`dragging_image_point`; `dragging_background` is not cleared by key events
(only the `c` key resets it, through `center_view`). -/
theorem C9_key_resets_window_image :
    ∀ (f : FTR) (k m x y : ℤ), k ≠ 113 →
      (event_key f k m x y).userdata.dragging_window_point = false ∧
      (event_key f k m x y).userdata.dragging_image_point = false :=
  fun f k m x y h => event_key_clears_window_image f k m x y h

/-- C9 witness: the `j` key (106) on the freshly started viewer. -/
theorem C9_key_resets_window_image_witness :
    (event_key initial_ftr 106 0 0 0).userdata.dragging_window_point = false ∧
    (event_key initial_ftr 106 0 0 0).userdata.dragging_image_point = false :=
  C9_key_resets_window_image initial_ftr 106 0 0 0 (by decide)

/-- C9 counterexample: a left press on the background at `(500,500)` sets
`dragging_background`; the subsequent `j` key event leaves it set, so a key
event does not return the drag machine to Idle. -/
theorem C9_background_survives_key :
    (run_events [ftr_event.button FTR_BUTTON_LEFT 0 500 500,
                 ftr_event.key 106 0 0 0]).userdata.dragging_background
      = true := by
  norm_num [run_events, ftr_step, initial_ftr, center_view, event_button,
    event_key, hit_point, map_view_to_window, map_window_to_view,
    drag_point_in_window_domain, change_view_offset, change_view_scale,
    change_radius, DISK_RADIUS, FTR_BUTTON_LEFT, FTR_BUTTON_RIGHT,
    FTR_BUTTON_DOWN, FTR_BUTTON_UP, FTR_KEY_LEFT, FTR_KEY_UP, FTR_KEY_RIGHT,
    FTR_KEY_DOWN]

/-- C10: the segment traversal (a) swaps its endpoints through exactly one
recursive call when `qx+qy < px+py` and then runs the straight walk, (b)
plots a single pixel for coincident endpoints, (c) in the near-horizontal
branch makes exactly `qx-px` plot calls at `x = px..qx-1`, never plotting
the endpoint pixel `(qx,qy)`, and (d) in the near-vertical branch makes
exactly `qy-py+1` plot calls at `y = py..qy`, plotting both endpoint
pixels. -/
theorem C10_traverse_segment_walk :
    (∀ px py qx qy : ℤ, qx + qy < px + py →
      traverse_segment px py qx qy = traverse_straight qx qy px py) ∧
    (∀ px py : ℤ, traverse_segment px py px py = [(px, py)]) ∧
    (∀ px py qx qy : ℤ, ¬(px = qx ∧ py = qy) → px + py ≤ qx + qy →
      qx - px > qy - py →
      traverse_segment px py qx qy =
        (List.range (qx - px).toNat).map
          (fun (i : ℕ) => (px + (i : ℤ),
            round ((py : ℚ) + (i : ℚ)
              * (((qy - py : ℤ) : ℚ) / ((qx - px : ℤ) : ℚ))))) ∧
      (traverse_segment px py qx qy).length = (qx - px).toNat ∧
      (∀ z ∈ traverse_segment px py qx qy, px ≤ z.1 ∧ z.1 < qx) ∧
      (qx, qy) ∉ traverse_segment px py qx qy) ∧
    (∀ px py qx qy : ℤ, ¬(px = qx ∧ py = qy) → px + py ≤ qx + qy →
      ¬(qx - px > qy - py) →
      traverse_segment px py qx qy =
        (List.range ((qy - py).toNat + 1)).map
          (fun (j : ℕ) => (round ((px : ℚ) + (j : ℚ)
              * (((qx - px : ℤ) : ℚ) / ((qy - py : ℤ) : ℚ))), py + (j : ℤ))) ∧
      (traverse_segment px py qx qy).length = (qy - py).toNat + 1 ∧
      (px, py) ∈ traverse_segment px py qx qy ∧
      (qx, qy) ∈ traverse_segment px py qx qy) := by
  have hswap : ∀ px py qx qy : ℤ, qx + qy < px + py →
      traverse_segment px py qx qy = traverse_straight qx qy px py := by
    intro px py qx qy h
    rw [traverse_segment]
    rw [if_neg (by rintro ⟨rfl, rfl⟩; omega), if_pos h]
    rw [traverse_segment]
    rw [if_neg (by rintro ⟨rfl, rfl⟩; omega), if_neg (by omega)]
  have hstraight : ∀ px py qx qy : ℤ, ¬(px = qx ∧ py = qy) →
      px + py ≤ qx + qy →
      traverse_segment px py qx qy = traverse_straight px py qx qy := by
    intro px py qx qy hne hsum
    rw [traverse_segment]
    rw [if_neg (by rintro ⟨rfl, rfl⟩; exact hne ⟨rfl, rfl⟩),
      if_neg (by omega)]
  refine ⟨hswap, ?_, ?_, ?_⟩
  · intro px py
    rw [traverse_segment]
    simp
  · intro px py qx qy hne hsum hhor
    have hxpos : 0 < qx - px := by omega
    have heq : traverse_segment px py qx qy =
        (List.range (qx - px).toNat).map
          (fun (i : ℕ) => (px + (i : ℤ),
            round ((py : ℚ) + (i : ℚ)
              * (((qy - py : ℤ) : ℚ) / ((qx - px : ℤ) : ℚ))))) := by
      rw [hstraight px py qx qy hne hsum, traverse_straight,
        if_pos (Or.inl hhor)]
    refine ⟨heq, ?_, ?_, ?_⟩
    · rw [heq]; simp
    · intro z hz
      rw [heq] at hz
      simp only [List.mem_map, List.mem_range] at hz
      obtain ⟨i, hi, rfl⟩ := hz
      constructor
      · simp
      · have : (i : ℤ) < qx - px := by omega
        simpa using by omega
    · intro hmem
      rw [heq] at hmem
      simp only [List.mem_map, List.mem_range] at hmem
      obtain ⟨i, hi, hzi⟩ := hmem
      have h1 : px + (i : ℤ) = qx := congrArg Prod.fst hzi
      omega
  · intro px py qx qy hne hsum hver
    have hypos : 0 < qy - py := by
      rcases lt_or_le py qy with h | h
      · omega
      · exfalso
        have h1 : qx = px := by omega
        have h2 : qy = py := by omega
        exact hne ⟨h1.symm, h2.symm⟩
    have heq : traverse_segment px py qx qy =
        (List.range ((qy - py).toNat + 1)).map
          (fun (j : ℕ) => (round ((px : ℚ) + (j : ℚ)
              * (((qx - px : ℤ) : ℚ) / ((qy - py : ℤ) : ℚ))), py + (j : ℤ))) := by
      rw [hstraight px py qx qy hne hsum, traverse_straight,
        if_neg (by push_neg; omega)]
    refine ⟨heq, ?_, ?_, ?_⟩
    · rw [heq]; simp
    · rw [heq]
      simp only [List.mem_map, List.mem_range]
      refine ⟨0, by omega, ?_⟩
      simp
    · rw [heq]
      simp only [List.mem_map, List.mem_range]
      refine ⟨(qy - py).toNat, by omega, ?_⟩
      have hcast : (((qy - py).toNat : ℤ) : ℚ) = ((qy - py : ℤ) : ℚ) := by
        rw [Int.toNat_of_nonneg (by omega)]
      have hq0 : ((qy - py : ℤ) : ℚ) ≠ 0 := by
        exact_mod_cast (by omega : (qy - py : ℤ) ≠ 0)
      have hq0' : ((qy : ℚ) - (py : ℚ)) ≠ 0 := by
        have : ((qy - py : ℤ) : ℚ) ≠ 0 :=
          Int.cast_ne_zero.mpr (by omega : (qy - py : ℤ) ≠ 0)
        push_cast at this
        exact this
      have hval : (px : ℚ) + (((qy - py).toNat : ℕ) : ℚ)
          * (((qx - px : ℤ) : ℚ) / ((qy - py : ℤ) : ℚ)) = ((qx : ℤ) : ℚ) := by
        push_cast at hcast ⊢
        rw [hcast]
        field_simp
      rw [hval]
      rw [Prod.mk.injEq]
      exact ⟨by simp, by omega⟩

/-- C10 witness: the four branches of the traversal exercised at concrete
endpoints — a swapped segment, a degenerate point, a near-horizontal
segment `(0,0)–(3,1)` and a near-vertical segment `(0,0)–(1,3)`. -/
theorem C10_traverse_segment_walk_witness :
    (traverse_segment 5 5 0 0 = traverse_straight 0 0 5 5) ∧
    (traverse_segment 2 3 2 3 = [((2:ℤ), (3:ℤ))]) ∧
    ((traverse_segment 0 0 3 1).length = ((3:ℤ) - 0).toNat ∧
      ((3:ℤ), (1:ℤ)) ∉ traverse_segment 0 0 3 1) ∧
    ((traverse_segment 0 0 1 3).length = ((3:ℤ) - 0).toNat + 1 ∧
      ((0:ℤ), (0:ℤ)) ∈ traverse_segment 0 0 1 3 ∧
      ((1:ℤ), (3:ℤ)) ∈ traverse_segment 0 0 1 3) :=
  ⟨C10_traverse_segment_walk.1 5 5 0 0 (by decide),
   C10_traverse_segment_walk.2.1 2 3,
   ⟨(C10_traverse_segment_walk.2.2.1 0 0 3 1 (by decide) (by decide)
       (by decide)).2.1,
    (C10_traverse_segment_walk.2.2.1 0 0 3 1 (by decide) (by decide)
       (by decide)).2.2.2⟩,
   ⟨(C10_traverse_segment_walk.2.2.2 0 0 1 3 (by decide) (by decide)
       (by decide)).2.1,
    (C10_traverse_segment_walk.2.2.2 0 0 1 3 (by decide) (by decide)
       (by decide)).2.2.1,
    (C10_traverse_segment_walk.2.2.2 0 0 1 3 (by decide) (by decide)
       (by decide)).2.2.2⟩⟩
